import Mathlib

/-!
Verification development for the coral co-simulation runtime.

We give a shallow embedding of the parts of the code base that the
checked properties concern: the `QualifiedVariableName` value type and
the `ModelBuilder` (from `src/lib/master_model_builder.cpp`), the
future/promise shared state and `WhenAll` (from
`src/include/coral/event/future.hpp`), and the RFSM master (from
`src/lib/net_rfsm.cpp`).

C++ strings are modelled as `List Char`, `std::unordered_map` as an
association list with the corresponding `insert` / `operator[]` /
`erase` semantics, and C++ exceptions as explicit error values.  Every
member function that can throw is translated in a state-preserving
style: it returns the pair of an `Except` outcome and the post-state of
the object, where a thrown exception leaves the object in exactly the
state it had reached when the throw happened (which, in the translated
code, is always the entry state, since all throws precede all
mutations).

Parts of the repository that the claims depend on but whose sources are
not present in the tree (the `coral::model` helper functions, the
reactor's immediate-event queue, and the RFSM reply/timeout handling)
are modelled from the specification; each such definition carries a
doc comment starting with `Modelled from the spec:`.
-/

set_option autoImplicit false

namespace Coral

/-- C++ `std::string` / `(const char*, size)` pairs, modelled as lists of
characters. -/
abbrev Str := List Char

/-! ### Association lists modelling `std::unordered_map`

Entry order is irrelevant for an unordered map; we keep the most
recently inserted entry at the head.  `lookupA` is `find`, `setA` is
`operator[]` followed by assignment (replace-or-insert), `insertNewA`
is `insert` (which fails, leaving the map unchanged, when the key is
present; the `Bool` is `ins.second`), and `eraseA` is `erase`. -/

instance {ε α : Type} [DecidableEq ε] [DecidableEq α] :
    DecidableEq (Except ε α) := fun x y =>
  match x, y with
  | .ok a, .ok b => decidable_of_iff (a = b) (by simp)
  | .ok _, .error _ => isFalse (by simp)
  | .error _, .ok _ => isFalse (by simp)
  | .error a, .error b => decidable_of_iff (a = b) (by simp)

def lookupA {κ ν : Type} [DecidableEq κ] : List (κ × ν) → κ → Option ν
  | [], _ => none
  | p :: rest, k => if p.1 = k then some p.2 else lookupA rest k

def setA {κ ν : Type} [DecidableEq κ] : List (κ × ν) → κ → ν → List (κ × ν)
  | [], k, v => [(k, v)]
  | p :: rest, k, v => if p.1 = k then (k, v) :: rest else p :: setA rest k v

def insertNewA {κ ν : Type} [DecidableEq κ]
    (m : List (κ × ν)) (k : κ) (v : ν) : List (κ × ν) × Bool :=
  match lookupA m k with
  | some _ => (m, false)
  | none => ((k, v) :: m, true)

def eraseA {κ ν : Type} [DecidableEq κ] : List (κ × ν) → κ → List (κ × ν)
  | [], _ => []
  | p :: rest, k => if p.1 = k then eraseA rest k else p :: eraseA rest k

/-! ### The `coral::model` data types

`coral/model.hpp` is not part of the source tree (only its users are),
so the enumerations and the `ScalarValue` variant are modelled from the
specification (spec section 3, "DATA MODEL"). -/

/-- Modelled from the spec: `data type ∈ {Real, Integer, Boolean, String}`
(`coral::model::DataType`; `coral/model.hpp` is absent from the tree). -/
inductive DataType
  | real
  | integer
  | boolean
  | str
deriving DecidableEq

/-- Modelled from the spec: `causality ∈ {Input, Output, Parameter,
CalculatedParameter, Local}` (`coral::model::Causality`). -/
inductive Causality
  | input
  | output
  | param
  | calculatedParam
  | localC
deriving DecidableEq

/-- Modelled from the spec: `variability ∈ {Constant, Fixed, Tunable,
Discrete, Continuous}` (`coral::model::Variability`). -/
inductive Variability
  | constant
  | fixed
  | tunable
  | discrete
  | continuous
deriving DecidableEq

/-- Modelled from the spec: `coral::model::ScalarValue`, a variant over
the four data types.  The numeric payload of a `Real` value is opaque to
every model-builder operation (only the type tag is ever inspected, via
`DataTypeOf`), so it is represented by `Int`. -/
inductive ScalarValue
  | realV (v : Int)
  | integerV (v : Int)
  | booleanV (v : Bool)
  | stringV (v : Str)
deriving DecidableEq

/-- Modelled from the spec: `coral::model::DataTypeOf`, the runtime data
type of a `ScalarValue`. -/
def DataTypeOf : ScalarValue → DataType
  | .realV _ => .real
  | .integerV _ => .integer
  | .booleanV _ => .boolean
  | .stringV _ => .str

/-- Modelled from the spec: `coral::model::DataTypeName`, used only to
build error-message strings. -/
def DataTypeName : DataType → Str
  | .real => "real".toList
  | .integer => "integer".toList
  | .boolean => "boolean".toList
  | .str => "string".toList

/-- `coral::model::VariableDescription` (spec section 3): id, name, data
type, causality, variability; immutable once published. -/
structure VariableDescription where
  id : Nat
  name : Str
  dataType : DataType
  causality : Causality
  variability : Variability
deriving DecidableEq

/-- `coral::model::SlaveTypeDescription` (spec section 3).  The field
holding the `Variables()` vector is named `vars` because `variables` is
reserved in Lean. -/
structure SlaveTypeDescription where
  name : Str
  uuid : Str
  description : Str
  author : Str
  version : Str
  vars : List VariableDescription
deriving DecidableEq

/-- Modelled from the spec: `coral::model::IsValidSlaveName`
(`coral/model.hpp` is absent).  Spec section 4.5: "Name must be a valid
identifier (non-empty; alphanumeric + underscore; does not start with a
digit)." -/
def IsValidSlaveName (s : Str) : Bool :=
  match s with
  | [] => false
  | c :: _ => (!c.isDigit) && s.all (fun d => d.isAlphanum || d = '_')

/-! ### QualifiedVariableName (`master_model_builder.cpp`) -/

/-- `coral::master::QualifiedVariableName`: a (slave name, variable
name) pair.  (`variable` is a Lean keyword, hence the field name
`varName`.) -/
structure QualifiedVariableName where
  slave : Str
  varName : Str
deriving DecidableEq

/-- The exception kinds thrown by the model-builder code:
`std::invalid_argument`, `coral::master::ModelConstructionException`
and `coral::master::EntityNotFoundException`, each carrying its
message. -/
inductive BuilderError
  | invalidArgument (msg : Str)
  | modelConstruction (msg : Str)
  | entityNotFound (msg : Str)
deriving DecidableEq

/-- The anonymous-namespace helper `QualifiedVariableNameString`:
`slave + '.' + variable`. -/
def QualifiedVariableNameString (slave variable_ : Str) : Str :=
  slave ++ '.' :: variable_

/-- `QualifiedVariableName::ToString()`. -/
def QualifiedVariableName.ToStr (q : QualifiedVariableName) : Str :=
  QualifiedVariableNameString q.slave q.varName

/-- The `QualifiedVariableName` constructor, whose `CORAL_INPUT_CHECK`
calls reject an empty slave or variable name with
`std::invalid_argument`. -/
def QualifiedVariableName.mkChecked (slave variable_ : Str) :
    Except BuilderError QualifiedVariableName :=
  if slave = [] then .error (.invalidArgument ("empty slave name".toList))
  else if variable_ = [] then .error (.invalidArgument ("empty variable name".toList))
  else .ok ⟨slave, variable_⟩

/-- `std::string::find(char)`: index of the first occurrence, if any.
(The C++ function returns `npos = SIZE_MAX` when there is none; the
`none` case below.) -/
def strFind : Str → Char → Option Nat
  | [], _ => none
  | c :: rest, d => if c = d then some 0 else (strFind rest d).map (· + 1)

/-- `QualifiedVariableName::FromString(s)`:

    const auto pos = s.find('.');
    if (pos < 1 || pos >= s.size()-1) throw std::invalid_argument(...);
    return QualifiedVariableName{s.substr(0, pos), s.substr(pos+1)};

When the dot is absent, `pos` is `npos = SIZE_MAX`, which satisfies
`pos >= s.size()-1` for every realisable string, so that case throws;
this is the `none` branch below.  When a dot is found, `s.size() >= 1`,
so the `size_t` subtraction `s.size()-1` does not wrap and coincides
with truncated `Nat` subtraction. -/
def QualifiedVariableName.FromString (s : Str) :
    Except BuilderError QualifiedVariableName :=
  match strFind s '.' with
  | none =>
      .error (.invalidArgument
        ("Not a fully qualified variable name: ".toList ++ s))
  | some pos =>
      if pos < 1 ∨ pos ≥ s.length - 1 then
        .error (.invalidArgument
          ("Not a fully qualified variable name: ".toList ++ s))
      else
        QualifiedVariableName.mkChecked (s.take pos) (s.drop (pos + 1))

/-- The position of the first `'.'` in `s`, phrased as a specification
predicate independent of `strFind`. -/
def FirstDotAt (s : Str) (i : Nat) : Prop :=
  s[i]? = some '.' ∧ ∀ j, j < i → s[j]? ≠ some '.'

/-! ### ModelBuilder (`master_model_builder.cpp`)

The `ModelBuilder::Impl` object holds four unordered maps.  `m_slaves`
maps a slave name to a pointer into the `m_slaveTypes` intern cache;
entries of the cache are never removed or overwritten (a second
`insert` with the same UUID keeps the first entry), so the pointer is
modelled by storing the pointed-to `CachedSlaveType` value directly.

Crucially, `ConnectVariables` executes

    auto ins = m_connections.insert(std::make_pair(source, target));
    if (!ins.second) throw ModelConstructionException{
        "Variable already connected: " + target.ToString()};

so `m_connections` is keyed by the *source* of a connection: the map
entry `(source, target)` fails to insert exactly when `source` is
already a key. -/

/-- The anonymous-namespace `CachedSlaveType`: a slave type description
together with its by-name variable lookup table.  The table is an
`unordered_map` populated by `insert` over `description.Variables()` in
order, so for duplicate names the first variable wins; this is exactly
`List.find?` on the vector. -/
structure CachedSlaveType where
  description : SlaveTypeDescription
deriving DecidableEq

/-- Lookup in `CachedSlaveType::variables` (first variable with the
given name, per `unordered_map::insert` semantics). -/
def CachedSlaveType.findVar (c : CachedSlaveType) (n : Str) :
    Option VariableDescription :=
  c.description.vars.find? (fun v => v.name = n)

/-- The state of a `ModelBuilder::Impl` object. -/
structure ModelBuilderState where
  slaveTypes : List (Str × CachedSlaveType)
  slaves : List (Str × CachedSlaveType)
  initialValues : List (QualifiedVariableName × ScalarValue)
  connections : List (QualifiedVariableName × QualifiedVariableName)
deriving DecidableEq

/-- A freshly constructed `ModelBuilder`. -/
def ModelBuilderState.empty : ModelBuilderState :=
  ⟨[], [], [], []⟩

/-- A builder operation returning `α`: the outcome (normal return or
thrown exception) together with the post-state of the `Impl` object.
A throw leaves the object in the state it had reached at the throw
site. -/
abbrev BuildResult (α : Type) := Except BuilderError α × ModelBuilderState

/-- The anonymous-namespace helper `ConnectionErrMsg`. -/
def ConnectionErrMsg (sourceSlaveName sourceVariableName
    targetSlaveName targetVariableName details : Str) : Str :=
  "Cannot connect variable ".toList
    ++ QualifiedVariableNameString sourceSlaveName sourceVariableName
    ++ " to ".toList
    ++ QualifiedVariableNameString targetSlaveName targetVariableName
    ++ ": ".toList ++ details

/-- The anonymous-namespace helper `EnforceValidValue`: throws
`ModelConstructionException` when the runtime data type of `value`
differs from the variable's declared data type. -/
def EnforceValidValue (slaveName : Str) (variable_ : VariableDescription)
    (value : ScalarValue) : Except BuilderError Unit :=
  if DataTypeOf value ≠ variable_.dataType then
    .error (.modelConstruction
      ("Attempted to assign a value of type ".toList
        ++ DataTypeName (DataTypeOf value)
        ++ " to variable ".toList
        ++ QualifiedVariableNameString slaveName variable_.name
        ++ " which has type ".toList
        ++ DataTypeName variable_.dataType))
  else .ok ()

/-- The anonymous-namespace helper `EnforceValidConnection`: checks
causality, then data type. -/
def EnforceValidConnection (sourceSlaveName : Str)
    (sourceVariable : VariableDescription) (targetSlaveName : Str)
    (targetVariable : VariableDescription) : Except BuilderError Unit :=
  match
    (if sourceVariable.causality = .output then
      (if targetVariable.causality ≠ .input then
        Except.error (BuilderError.modelConstruction
          (ConnectionErrMsg sourceSlaveName sourceVariable.name
            targetSlaveName targetVariable.name
            "An output variable may only be connected to an input variable".toList))
      else .ok ())
    else if sourceVariable.causality = .calculatedParam then
      (if targetVariable.causality ≠ .param ∧ targetVariable.causality ≠ .input then
        Except.error (BuilderError.modelConstruction
          (ConnectionErrMsg sourceSlaveName sourceVariable.name
            targetSlaveName targetVariable.name
            "A calculated parameter may only be connected to a parameter or input variable".toList))
      else .ok ())
    else
      Except.error (BuilderError.modelConstruction
        (ConnectionErrMsg sourceSlaveName sourceVariable.name
          targetSlaveName targetVariable.name
          "Only output variables and calculated parameters may be used as sources in a connection".toList)))
  with
  | .error e => .error e
  | .ok () =>
    if sourceVariable.dataType ≠ targetVariable.dataType then
      .error (.modelConstruction
        (ConnectionErrMsg sourceSlaveName sourceVariable.name
          targetSlaveName targetVariable.name
          ("A variable of type ".toList
            ++ DataTypeName sourceVariable.dataType
            ++ " cannot be connected to a variable of type ".toList
            ++ DataTypeName targetVariable.dataType)))
    else .ok ()

/-- `ModelBuilder::Impl::GetVariableDescription`: looks the slave up in
`m_slaves`, then the variable in the slave type's variable table,
throwing `EntityNotFoundException` when either is missing.  It mutates
nothing. -/
def GetVariableDescription (st : ModelBuilderState)
    (variable_ : QualifiedVariableName) :
    Except BuilderError VariableDescription :=
  match lookupA st.slaves variable_.slave with
  | none =>
      .error (.entityNotFound ("Unknown slave name: ".toList ++ variable_.slave))
  | some slaveType =>
      match slaveType.findVar variable_.varName with
      | none =>
          .error (.entityNotFound ("Unknown variable: ".toList ++ variable_.ToStr))
      | some v => .ok v

/-- `ModelBuilder::Impl::AddSlave`. -/
def AddSlave (st : ModelBuilderState) (name : Str)
    (type_ : SlaveTypeDescription) : BuildResult Unit :=
  if ¬ IsValidSlaveName name then
    (.error (.invalidArgument ("Not a valid slave name: ".toList ++ name)), st)
  else if (lookupA st.slaves name).isSome then
    (.error (.modelConstruction ("Slave name already in use: ".toList ++ name)), st)
  else
    let ins := insertNewA st.slaveTypes type_.uuid ⟨type_⟩
    let cachedType : CachedSlaveType :=
      match lookupA st.slaveTypes type_.uuid with
      | some c => c
      | none => ⟨type_⟩
    (.ok (), { st with
        slaveTypes := ins.1,
        slaves := (name, cachedType) :: st.slaves })

/-- `ModelBuilder::Impl::SetInitialValue`: validates (throwing before
any mutation), then `m_initialValues[variable] = value`. -/
def SetInitialValue (st : ModelBuilderState)
    (variable_ : QualifiedVariableName) (value : ScalarValue) :
    BuildResult Unit :=
  match GetVariableDescription st variable_ with
  | .error e => (.error e, st)
  | .ok varDesc =>
    match EnforceValidValue variable_.slave varDesc value with
    | .error e => (.error e, st)
    | .ok () =>
        (.ok (), { st with initialValues := setA st.initialValues variable_ value })

/-- `ModelBuilder::Impl::GetInitialValue` (a `const` member; it mutates
nothing): throws `EntityNotFoundException` whenever no value is stored
for the variable, with no fallback to a declared default. -/
def GetInitialValue (st : ModelBuilderState)
    (variable_ : QualifiedVariableName) : Except BuilderError ScalarValue :=
  match lookupA st.initialValues variable_ with
  | none =>
      .error (.entityNotFound
        ("No initial value set for variable ".toList ++ variable_.ToStr))
  | some v => .ok v

/-- `ModelBuilder::Impl::ResetInitialValue`: `m_initialValues.erase`. -/
def ResetInitialValue (st : ModelBuilderState)
    (variable_ : QualifiedVariableName) : ModelBuilderState :=
  { st with initialValues := eraseA st.initialValues variable_ }

/-- `ModelBuilder::Impl::ConnectVariables`: validates the connection
(both lookups may throw `EntityNotFoundException`, the validity checks
may throw `ModelConstructionException`), then

    auto ins = m_connections.insert(std::make_pair(source, target));
    if (!ins.second) throw ModelConstructionException{
        "Variable already connected: " + target.ToString()};

The C++ leaves the evaluation order of the two
`GetVariableDescription` calls unspecified; we evaluate the source
lookup first (either order throws `EntityNotFoundException` when one
of the names is unknown). -/
def ConnectVariables (st : ModelBuilderState)
    (source target : QualifiedVariableName) : BuildResult Unit :=
  match GetVariableDescription st source with
  | .error e => (.error e, st)
  | .ok sourceVar =>
    match GetVariableDescription st target with
    | .error e => (.error e, st)
    | .ok targetVar =>
      match EnforceValidConnection source.slave sourceVar target.slave targetVar with
      | .error e => (.error e, st)
      | .ok () =>
        let ins := insertNewA st.connections source target
        let st' := { st with connections := ins.1 }
        if ins.2 then (.ok (), st')
        else
          (.error (.modelConstruction
            ("Variable already connected: ".toList ++ target.ToStr)), st')

/-! ### Future / Promise (`coral/event/future.hpp`)

`detail::SharedState<T>` holds the reactor reference, the
`futureRetrieved` / `resultRetrieved` flags, the optional result and
exception, and the optional result / exception handlers.  `OnCompletion`
registers one fixed pair of handlers `(r, x)` at most once, so handler
presence is modelled by a `Bool` and a handler call is recorded in an
invocation log: a log entry `.result v` means "r was called with v"
and `.exception e` means "x was called with e".

The reactor implementation (`coral/net/reactor.hpp`) is absent from
the tree; its immediate-event queue, the only part these claims use,
is modelled from the spec. -/

/-- `detail::SharedState<T>` with exceptions drawn from `E`
(`std::exception_ptr` is opaque to this code; it is only stored and
passed on). -/
structure SharedState (T E : Type) where
  futureRetrieved : Bool := false
  resultRetrieved : Bool := false
  resultHandlerSet : Bool := false
  exceptionHandlerSet : Bool := false
  result : Option T := none
  exception : Option E := none
deriving DecidableEq

/-- Handler invocations, as recorded in the log. -/
inductive Invocation (T E : Type)
  | result (v : T)
  | exception (e : E)
deriving DecidableEq

/-- The closures that `DelayCallResultHandler` /
`DelayCallExceptionHandler` pass to `AddImmediateEvent`. -/
inductive PendingAction
  | callResult
  | callException
deriving DecidableEq

/-- A (promise, future) pair's shared state together with the
reactor's immediate-event queue and the invocation log of the pair's
handlers. -/
structure PFState (T E : Type) where
  shared : SharedState T E
  queue : List PendingAction := []
  invocations : List (Invocation T E) := []
deriving DecidableEq

/-- The state created by `Promise<T>::Promise(reactor)`: an empty
shared state, nothing queued, nothing invoked. -/
def PFState.init (T E : Type) : PFState T E :=
  { shared := {} }

/-- The exceptions thrown synchronously by the future/promise code:
`std::future_error` codes, plus the `CORAL_PRECONDITION_CHECK` /
`CORAL_INPUT_CHECK` failures of `Future<T>::OnCompletion`. -/
inductive FutureErr
  | futureAlreadyRetrieved
  | promiseAlreadySatisfied
  | noState
  | preconditionViolation
deriving DecidableEq

/-- Modelled from the spec: the reactor's `AddImmediateEvent` (the
reactor sources are absent from the tree).  Spec section 4.1:
immediate events are queued in FIFO order and each runs exactly
once. -/
def AddImmediateEvent {T E : Type} (s : PFState T E) (a : PendingAction) :
    PFState T E :=
  { s with queue := s.queue ++ [a] }

/-- `detail::DelayCallResultHandler`: queues an immediate event whose
closure sets `resultRetrieved` and calls the result handler with the
stored result (`CallResultHandler`). -/
def DelayCallResultHandler {T E : Type} (s : PFState T E) : PFState T E :=
  AddImmediateEvent s .callResult

/-- `detail::DelayCallExceptionHandler`: queues an immediate event
whose closure sets `resultRetrieved` and calls the exception handler
with the stored exception. -/
def DelayCallExceptionHandler {T E : Type} (s : PFState T E) : PFState T E :=
  AddImmediateEvent s .callException

/-- `detail::GetFuture` (`Promise<T>::GetFuture()` forwards to it): on
the first call marks the future as retrieved and hands out the single
`Future` sharing the state; later calls throw `std::future_error`
with code `future_already_retrieved`.  (The `no_state` branch concerns
a moved-from promise, which has no shared state at all and hence no
`PFState`.) -/
def GetFuture {T E : Type} (s : PFState T E) :
    Except FutureErr Unit × PFState T E :=
  if s.shared.futureRetrieved then (.error .futureAlreadyRetrieved, s)
  else (.ok (), { s with shared := { s.shared with futureRetrieved := true } })

/-- `Future<T>::OnCompletion(resultHandler, exceptionHandler)`:
requires `Valid()` (shared state present and no result handler
assigned yet), stores both handlers, and if a result or exception is
already stored queues the appropriate immediate event. -/
def OnCompletion {T E : Type} (s : PFState T E) :
    Except FutureErr Unit × PFState T E :=
  if s.shared.resultHandlerSet then (.error .preconditionViolation, s)
  else
    let s := { s with shared :=
      { s.shared with resultHandlerSet := true, exceptionHandlerSet := true } }
    if s.shared.result.isSome then (.ok (), DelayCallResultHandler s)
    else if s.shared.exception.isSome then (.ok (), DelayCallExceptionHandler s)
    else (.ok (), s)

/-- `detail::EnforceUnsatisfied`: throws `std::future_error` with code
`promise_already_satisfied` when a result or exception is already
stored. -/
def EnforceUnsatisfied {T E : Type} (s : SharedState T E) :
    Except FutureErr Unit :=
  if s.result.isSome ∨ s.exception.isSome then .error .promiseAlreadySatisfied
  else .ok ()

/-- `detail::SetValue` (`Promise<T>::SetValue` forwards to it). -/
def SetValue {T E : Type} (s : PFState T E) (v : T) :
    Except FutureErr Unit × PFState T E :=
  match EnforceUnsatisfied s.shared with
  | .error e => (.error e, s)
  | .ok () =>
    let s := { s with shared := { s.shared with result := some v } }
    if s.shared.resultHandlerSet then (.ok (), DelayCallResultHandler s)
    else (.ok (), s)

/-- `detail::SetException` (`Promise<T>::SetException` forwards to
it). -/
def SetException {T E : Type} (s : PFState T E) (e : E) :
    Except FutureErr Unit × PFState T E :=
  match EnforceUnsatisfied s.shared with
  | .error err => (.error err, s)
  | .ok () =>
    let s := { s with shared := { s.shared with exception := some e } }
    if s.shared.exceptionHandlerSet then (.ok (), DelayCallExceptionHandler s)
    else (.ok (), s)

/-- Dispatch of one queued immediate event.  The `.callResult` closure
is `state->resultRetrieved = true; CallResultHandler(*state)`, which
calls the result handler with the stored result; the assertions of
`CallResultHandler` guarantee that the handler and the result are
present whenever the closure was queued, which holds in every
reachable state (in an unreachable state with no stored result the
closure would abort; the model records no invocation there). -/
def dispatchAction {T E : Type} (s : PFState T E) (a : PendingAction) :
    PFState T E :=
  match a with
  | .callResult =>
    { s with
        shared := { s.shared with resultRetrieved := true },
        invocations :=
          match s.shared.result with
          | some v => s.invocations ++ [.result v]
          | none => s.invocations }
  | .callException =>
    { s with
        shared := { s.shared with resultRetrieved := true },
        invocations :=
          match s.shared.exception with
          | some e => s.invocations ++ [.exception e]
          | none => s.invocations }

/-- Modelled from the spec: `Reactor::Run()`'s handling of immediate
events (the reactor sources are absent from the tree).  Spec section
4.1: a run dispatches all currently queued immediate events in FIFO
order, each exactly once.  None of the dispatched closures here queue
new events, so the queue is empty afterwards. -/
def RunReactor {T E : Type} (s : PFState T E) : PFState T E :=
  s.queue.foldl dispatchAction { s with queue := [] }

/-- The calls a user makes on one (promise, future) pair. -/
inductive PFOp (T E : Type)
  | getFuture
  | onCompletion
  | setValue (v : T)
  | setException (e : E)

/-- One call, in the outcome-and-post-state style. -/
def applyPFOp {T E : Type} (s : PFState T E) (op : PFOp T E) :
    Except FutureErr Unit × PFState T E :=
  match op with
  | .getFuture => GetFuture s
  | .onCompletion => OnCompletion s
  | .setValue v => SetValue s v
  | .setException e => SetException s e

/-- A sequence of calls, stopping at the first thrown exception. -/
def applyPFOps {T E : Type} (s : PFState T E) :
    List (PFOp T E) → Except FutureErr (PFState T E)
  | [] => .ok s
  | op :: rest =>
    match applyPFOp s op with
    | (.ok (), s') => applyPFOps s' rest
    | (.error e, _) => .error e

/-! ### WhenAll (`coral/event/future.hpp`)

`WhenAll(first, last)` checks that the sequence is non-empty
(`CORAL_INPUT_CHECK`, throwing `std::invalid_argument`) and that every
input future is `Valid()` (else `std::future_error` with code
`no_state`), then builds a `WhenAllState` holding a results vector
with one default-constructed `AnyResult` per input and registers a
completion handler pair on each input future.  The handler for index
`i` stores the value (or exception) into `results[i]`, increments
`completed`, and when `completed` reaches the vector size resolves the
output promise with the vector.  The future/promise machinery invokes
the handler pair of each input exactly once, so a complete run is a
permutation of the indices. -/

/-- `AnyResult<T>`: either the value or the exception of one input
operation.  Default-constructed with both fields empty. -/
structure AnyResult (T E : Type) where
  value : Option T := none
  exception : Option E := none
deriving DecidableEq

/-- How one input future eventually resolves. -/
inductive Resolution (T E : Type)
  | value (v : T)
  | exception (e : E)

/-- The `AnyResult` entry that the `WhenAll` handlers produce for an
input resolving as `r`. -/
def anyResultOf {T E : Type} : Resolution T E → AnyResult T E
  | .value v => { value := some v }
  | .exception e => { exception := some e }

/-- `detail::WhenAllState<T>` for `n` input futures, together with the
state of its output promise.  `outValue` / `outException` model the
result and exception slots of `state->promise`; the `WhenAll` code
only ever calls `SetValue` on it, never `SetException`. -/
structure WhenAllState (n : Nat) (T E : Type) where
  completed : Nat := 0
  results : Fin n → AnyResult T E := fun _ => {}
  outValue : Option (List (AnyResult T E)) := none
  outException : Option E := none

/-- The completion handler pair that `WhenAll` registers on input
future `i`, invoked when that future resolves as `resolve i`:

    state->results[index].value = std::move(result);   // or .exception = ex
    ++(state->completed);
    if (state->completed == state->results.size()) {
        state->promise.SetValue(state->results);
    }
-/
def WhenAllHandler {n : Nat} {T E : Type} (resolve : Fin n → Resolution T E)
    (st : WhenAllState n T E) (i : Fin n) : WhenAllState n T E :=
  let r := st.results i
  let r' : AnyResult T E :=
    match resolve i with
    | .value v => { r with value := some v }
    | .exception e => { r with exception := some e }
  let results' := Function.update st.results i r'
  let completed' := st.completed + 1
  if completed' = n then
    { st with
        results := results',
        completed := completed',
        outValue := some (List.ofFn results') }
  else { st with results := results', completed := completed' }

/-- The input futures resolving one by one in the order given by
`order`, each firing its registered handler. -/
def RunWhenAll {n : Nat} {T E : Type} (resolve : Fin n → Resolution T E)
    (order : List (Fin n)) (st : WhenAllState n T E) : WhenAllState n T E :=
  order.foldl (WhenAllHandler resolve) st

/-- The exceptions `WhenAll` throws synchronously. -/
inductive WhenAllErr
  | invalidArgument
  | noState
deriving DecidableEq

/-- The up-front checks of `WhenAll(first, last)`, on the `Valid()`
flags of the input futures in sequence order:
`CORAL_INPUT_CHECK(first != last)` throws `std::invalid_argument` for
an empty sequence, then the loop throws `std::future_error` with code
`no_state` at the first input whose `Valid()` is false. -/
def WhenAllCheck (validOf : List Bool) : Except WhenAllErr Unit :=
  match validOf with
  | [] => .error .invalidArgument
  | _ =>
    if validOf.all (fun b => b) then .ok () else .error .noState

/-! ### RFSM master (`net_rfsm.cpp`)

`Master::Private` holds a REQ socket, the flag `m_busy`, and the
registered response handler.  `SendEvent` is implemented in the
source; the reply path (`ReceiveReply` is an empty stub) and the
timeout path (`SetTimeout` is declared but has no body in the tree)
are modelled from the spec.  Tearing the socket down and rebuilding it
is modelled by a generation counter: every frame is sent on the
current generation, and a rebuild increments the generation. -/

/-- The error kinds of the RFSM master's response handler
(`std::error_code` values; spec section 4.3). -/
inductive RfsmErr
  | timeout
  | connectionClosed
  | malformedReply
deriving DecidableEq

/-- One invocation of the registered response handler:
`onComplete(ec, state, responseID, responseData)`; `error = none`
means `Ok`. -/
structure HandlerCall where
  error : Option RfsmErr
  state : Nat
  responseID : Str
  responseData : Str
deriving DecidableEq

/-- The state of a `Master::Private` object. `socketGeneration` counts
socket rebuilds; `sentFrames` records each sent request as the list of
its frames, tagged with the generation of the socket it was sent on. -/
structure MasterState where
  busy : Bool := false
  state : Nat := 0
  socketGeneration : Nat := 0
  sentFrames : List (Nat × List Str) := []
  timeoutSet : Option Nat := none
  handlerRegistered : Bool := false
  handlerCalls : List HandlerCall := []
deriving DecidableEq

/-- The exception thrown synchronously by `SendEvent`
(`std::logic_error{"Slave is busy"}`). -/
inductive SendErr
  | busy
deriving DecidableEq

/-- `Master::Private::SendEvent`: throws when busy (before sending
anything); otherwise sends the three request frames
`"EVENT" | eventID | eventData` on the current socket, arms the
timeout, marks the master busy and stores the response handler. -/
def SendEvent (m : MasterState) (eventID eventData : Str)
    (timeout : Nat) : Except SendErr Unit × MasterState :=
  if m.busy then (.error .busy, m)
  else
    (.ok (), { m with
        sentFrames :=
          m.sentFrames ++ [(m.socketGeneration, ["EVENT".toList, eventID, eventData])],
        timeoutSet := some timeout,
        busy := true,
        handlerRegistered := true })

/-- Modelled from the spec: the timeout path of the RFSM master
(`SetTimeout` is declared but has no body in the tree, and
`ReceiveReply` is an empty stub).  Spec section 4.3: "On timeout:
`onComplete(Err(Timeout), 0, empty, empty)` and the underlying socket
is torn down and rebuilt (the REQ/REP state machine requires this)."
The outstanding request is thereby completed, so the master is no
longer busy and the next request goes out on the rebuilt socket. -/
def HandleTimeout (m : MasterState) : MasterState :=
  { m with
      busy := false,
      timeoutSet := none,
      socketGeneration := m.socketGeneration + 1,
      handlerCalls :=
        m.handlerCalls ++ [{ error := some .timeout, state := 0,
                             responseID := [], responseData := [] }] }

/-- Modelled from the spec: the reply path of the RFSM master
(`ReceiveReply` is an empty stub in the tree).  Spec section 4.3: "On
reply before timeout: `onComplete(Ok, state, response-id,
response-data)`"; the outstanding request is completed, so the master
is no longer busy. -/
def HandleReply (m : MasterState) (state : Nat)
    (responseID responseData : Str) : MasterState :=
  { m with
      busy := false,
      timeoutSet := none,
      state := state,
      handlerCalls :=
        m.handlerCalls ++ [{ error := none, state := state,
                             responseID := responseID,
                             responseData := responseData }] }

/-! ### Auxiliary predicates and concrete fixtures -/

/-- The slave named by `q` has been added to the builder and its type
declares a variable with `q`'s variable name: exactly the condition
under which `GetVariableDescription` does not throw. -/
def VariableExists (st : ModelBuilderState) (q : QualifiedVariableName) : Prop :=
  ∃ c, lookupA st.slaves q.slave = some c ∧ (c.findVar q.varName).isSome

instance (st : ModelBuilderState) (q : QualifiedVariableName) :
    Decidable (VariableExists st q) := by
  unfold VariableExists
  infer_instance

/-- The conditions the specification places on a recorded connection
with source variable `sv` and target variable `tv`: source causality in
{Output, CalculatedParameter}; target causality Input when the source
is an Output, and Input or Parameter when the source is a
CalculatedParameter; equal data types. -/
def ValidConnectionConds (sv tv : VariableDescription) : Prop :=
  (sv.causality = .output ∨ sv.causality = .calculatedParam)
  ∧ (sv.causality = .output → tv.causality = .input)
  ∧ (sv.causality = .calculatedParam →
      tv.causality = .input ∨ tv.causality = .param)
  ∧ sv.dataType = tv.dataType

instance (sv tv : VariableDescription) :
    Decidable (ValidConnectionConds sv tv) := by
  unfold ValidConnectionConds
  infer_instance

/-- The `widget` slave type of the model-builder unit test: three
output variables `a` (Real), `b` (Real), `c` (String). -/
def widgetType : SlaveTypeDescription :=
  { name := "widget".toList,
    uuid := "b331f8fc-3958-45ad-92fc-e88e57df4297".toList,
    description := "A widget that does something".toList,
    author := "A. Widgetmaker".toList,
    version := "1.0".toList,
    vars := [⟨0, "a".toList, .real, .output, .continuous⟩,
             ⟨1, "b".toList, .real, .output, .fixed⟩,
             ⟨2, "c".toList, .str, .output, .discrete⟩] }

/-- The `gadget` slave type of the model-builder unit test: three
input variables `x` (Real), `y` (Real), `z` (String). -/
def gadgetType : SlaveTypeDescription :=
  { name := "gadget".toList,
    uuid := "8876b42f-db2b-4b84-8695-1752057d3562".toList,
    description := "An interesting gadget".toList,
    author := "Gadgets Gadgets Gadgets".toList,
    version := "3.4".toList,
    vars := [⟨10, "x".toList, .real, .input, .continuous⟩,
             ⟨20, "y".toList, .real, .input, .continuous⟩,
             ⟨30, "z".toList, .str, .input, .fixed⟩] }

def qvnS1A : QualifiedVariableName := ⟨"slave1".toList, "a".toList⟩

def qvnS1B : QualifiedVariableName := ⟨"slave1".toList, "b".toList⟩

def qvnS2X : QualifiedVariableName := ⟨"slave2".toList, "x".toList⟩

def qvnS2Y : QualifiedVariableName := ⟨"slave2".toList, "y".toList⟩

def qvnS2Z : QualifiedVariableName := ⟨"slave2".toList, "z".toList⟩

/-- The builder after `AddSlave("slave1", widgetType)`. -/
def mbState1 : ModelBuilderState :=
  (AddSlave ModelBuilderState.empty ("slave1".toList) widgetType).2

/-- The builder after further `AddSlave("slave2", gadgetType)`. -/
def mbState2 : ModelBuilderState :=
  (AddSlave mbState1 ("slave2".toList) gadgetType).2

/-- The builder after further `Connect(slave1.a, slave2.x)`. -/
def mbState3 : ModelBuilderState :=
  (ConnectVariables mbState2 qvnS1A qvnS2X).2

/-!
## Theorems

First some general lemmas about the association-list operations and the
validation helpers, then one theorem (plus a witness where required)
per checked claim.
-/

theorem lookupA_setA_self {κ ν : Type} [DecidableEq κ]
    (m : List (κ × ν)) (k : κ) (v : ν) :
    lookupA (setA m k v) k = some v := by
  induction m with
  | nil => simp [setA, lookupA]
  | cons p rest ih =>
      by_cases h : p.1 = k <;> simp [setA, lookupA, h, ih]

theorem lookupA_setA_ne {κ ν : Type} [DecidableEq κ]
    (m : List (κ × ν)) (k k' : κ) (v : ν) (h : k' ≠ k) :
    lookupA (setA m k v) k' = lookupA m k' := by
  induction m with
  | nil => simp [setA, lookupA, Ne.symm h]
  | cons p rest ih =>
      by_cases hp : p.1 = k
      · subst hp
        simp [setA, lookupA, Ne.symm h]
      · simp only [setA, if_neg hp, lookupA]
        by_cases hp' : p.1 = k' <;> simp [hp', ih]

theorem lookupA_eraseA_self {κ ν : Type} [DecidableEq κ]
    (m : List (κ × ν)) (k : κ) :
    lookupA (eraseA m k) k = none := by
  induction m with
  | nil => simp [eraseA, lookupA]
  | cons p rest ih =>
      by_cases h : p.1 = k <;> simp [eraseA, lookupA, h, ih]

/-- `GetVariableDescription` succeeds exactly when the named slave has
been added and its type declares the named variable. -/
theorem getVariableDescription_ok_iff (st : ModelBuilderState)
    (q : QualifiedVariableName) :
    (∃ d, GetVariableDescription st q = .ok d) ↔ VariableExists st q := by
  unfold GetVariableDescription VariableExists
  cases h1 : lookupA st.slaves q.slave with
  | none => simp
  | some c =>
      cases h2 : c.findVar q.varName with
      | none => simp [h2]
      | some v => simp [h2]

/-- When the named slave or variable is missing,
`GetVariableDescription` throws `EntityNotFoundException`. -/
theorem getVariableDescription_error (st : ModelBuilderState)
    (q : QualifiedVariableName) (h : ¬ VariableExists st q) :
    ∃ msg, GetVariableDescription st q = .error (.entityNotFound msg) := by
  unfold VariableExists at h
  cases h1 : lookupA st.slaves q.slave with
  | none => exact ⟨_, by unfold GetVariableDescription; rw [h1]⟩
  | some c =>
      cases h2 : c.findVar q.varName with
      | none =>
          exact ⟨"Unknown variable: ".toList ++ q.ToStr,
            by unfold GetVariableDescription; rw [h1]; simp [h2]⟩
      | some v =>
          exact absurd ⟨c, h1, by simp [h2]⟩ h

/-- `EnforceValidConnection` returns normally exactly under the
specification's causality and data-type conditions. -/
theorem enforceValidConnection_ok_iff (s t : Str)
    (sv tv : VariableDescription) :
    EnforceValidConnection s sv t tv = .ok () ↔ ValidConnectionConds sv tv := by
  unfold EnforceValidConnection ValidConnectionConds
  cases h1 : sv.causality <;> cases h2 : tv.causality <;>
    by_cases h3 : sv.dataType = tv.dataType <;>
      simp [h1, h2, h3]

/-- When `EnforceValidConnection` does not return normally, it throws
`ModelConstructionException`. -/
theorem enforceValidConnection_error (s t : Str)
    (sv tv : VariableDescription)
    (h : EnforceValidConnection s sv t tv ≠ .ok ()) :
    ∃ msg, EnforceValidConnection s sv t tv = .error (.modelConstruction msg) := by
  unfold EnforceValidConnection at *
  cases h1 : sv.causality <;> cases h2 : tv.causality <;>
    by_cases h3 : sv.dataType = tv.dataType <;>
      simp [h1, h2, h3] at h ⊢

/-- C1: the claim states that a variable may be the target of at most
one connection.  The code keys `m_connections` by the *source*, so the
opposite holds: with `slave1.a → slave2.x` recorded, connecting
`slave1.b → slave2.x` (same target, fresh source) succeeds, while
connecting `slave1.a → slave2.y` (fresh target, reused source) throws
`ModelConstructionException` claiming "Variable already connected:
slave2.y" although `slave2.y` is the target of no recorded
connection. -/
theorem connect_target_not_unique_codebug :
    (ConnectVariables mbState2 qvnS1A qvnS2X).1 = .ok ()
    ∧ (ConnectVariables mbState3 qvnS1B qvnS2X).1 = .ok ()
    ∧ mbState3.connections.all (fun p => p.2 ≠ qvnS2Y) = true
    ∧ (ConnectVariables mbState3 qvnS1A qvnS2Y).1
        = .error (.modelConstruction
            ("Variable already connected: slave2.y".toList)) := by
  decide

/-- C4: a successful `Connect` records a connection satisfying the
causality and data-type conditions; a `Connect` violating them throws
`ModelConstructionException`; a `Connect` naming an unknown slave or
variable throws `EntityNotFoundException`. -/
theorem connect_validity_spec :
    (∀ st src tgt, (ConnectVariables st src tgt).1 = .ok () →
      ∃ sv tv, GetVariableDescription st src = .ok sv
        ∧ GetVariableDescription st tgt = .ok tv
        ∧ ValidConnectionConds sv tv)
    ∧ (∀ st src tgt sv tv, GetVariableDescription st src = .ok sv →
        GetVariableDescription st tgt = .ok tv →
        ¬ ValidConnectionConds sv tv →
        ∃ msg, (ConnectVariables st src tgt).1
          = .error (.modelConstruction msg))
    ∧ (∀ st src tgt, (¬ VariableExists st src ∨ ¬ VariableExists st tgt) →
        ∃ msg, (ConnectVariables st src tgt).1
          = .error (.entityNotFound msg)) := by
  refine ⟨?_, ?_, ?_⟩
  · intro st src tgt hok
    cases h1 : GetVariableDescription st src with
    | error e => simp [ConnectVariables, h1] at hok
    | ok sv =>
      cases h2 : GetVariableDescription st tgt with
      | error e => simp [ConnectVariables, h1, h2] at hok
      | ok tv =>
        cases h3 : EnforceValidConnection src.slave sv tgt.slave tv with
        | error e => simp [ConnectVariables, h1, h2, h3] at hok
        | ok u =>
          cases u
          exact ⟨sv, tv, rfl, rfl, (enforceValidConnection_ok_iff _ _ _ _).mp h3⟩
  · intro st src tgt sv tv h1 h2 hbad
    obtain ⟨msg, hmsg⟩ :=
      enforceValidConnection_error src.slave tgt.slave sv tv
        (fun hok => hbad ((enforceValidConnection_ok_iff _ _ _ _).mp hok))
    exact ⟨msg, by simp [ConnectVariables, h1, h2, hmsg]⟩
  · intro st src tgt h
    rcases h with h | h
    · obtain ⟨msg, hmsg⟩ := getVariableDescription_error st src h
      exact ⟨msg, by simp [ConnectVariables, hmsg]⟩
    · by_cases hs : VariableExists st src
      · obtain ⟨sv, hsv⟩ := (getVariableDescription_ok_iff st src).mpr hs
        obtain ⟨msg, hmsg⟩ := getVariableDescription_error st tgt h
        exact ⟨msg, by simp [ConnectVariables, hsv, hmsg]⟩
      · obtain ⟨msg, hmsg⟩ := getVariableDescription_error st src hs
        exact ⟨msg, by simp [ConnectVariables, hmsg]⟩

/-- Witness for C4: `slave1.a → slave2.x` is a valid Real Output →
Real Input connection; `slave1.c → slave2.y` is a String Output →
Real Input type mismatch; `slave3.x` names a slave that was never
added. -/
theorem connect_validity_spec_witness :
    (∃ sv tv, GetVariableDescription mbState2 qvnS1A = .ok sv
      ∧ GetVariableDescription mbState2 qvnS2X = .ok tv
      ∧ ValidConnectionConds sv tv)
    ∧ (∃ msg, (ConnectVariables mbState2 ⟨"slave1".toList, "c".toList⟩ qvnS2Y).1
        = .error (.modelConstruction msg))
    ∧ (∃ msg, (ConnectVariables mbState2 ⟨"slave3".toList, "x".toList⟩ qvnS2X).1
        = .error (.entityNotFound msg)) := by
  refine ⟨?_, ?_, ?_⟩
  · exact connect_validity_spec.1 mbState2 qvnS1A qvnS2X (by decide)
  · exact connect_validity_spec.2.1 mbState2 ⟨"slave1".toList, "c".toList⟩ qvnS2Y
      ⟨2, "c".toList, .str, .output, .discrete⟩
      ⟨20, "y".toList, .real, .input, .continuous⟩
      (by decide) (by decide) (by decide)
  · exact connect_validity_spec.2.2 mbState2 ⟨"slave3".toList, "x".toList⟩ qvnS2X
      (Or.inl (by decide))

/-- C5: `SetInitialValue` throws `EntityNotFoundException` for an
unknown slave or variable and `ModelConstructionException` for a
data-type mismatch, both leaving the stored values untouched; a
successful call replaces any previous value for the variable and
leaves other variables' values alone; `ResetInitialValue` removes the
stored value; `GetInitialValue` throws `EntityNotFoundException`
exactly when no value is stored, with no fallback. -/
theorem initialValue_spec :
    (∀ st q v, ¬ VariableExists st q →
      ∃ msg, (SetInitialValue st q v).1 = .error (.entityNotFound msg)
        ∧ (SetInitialValue st q v).2 = st)
    ∧ (∀ st q v d, GetVariableDescription st q = .ok d →
        DataTypeOf v ≠ d.dataType →
        ∃ msg, (SetInitialValue st q v).1 = .error (.modelConstruction msg)
          ∧ (SetInitialValue st q v).2 = st)
    ∧ (∀ st q v d, GetVariableDescription st q = .ok d →
        DataTypeOf v = d.dataType →
        (SetInitialValue st q v).1 = .ok ()
        ∧ lookupA (SetInitialValue st q v).2.initialValues q = some v
        ∧ ∀ q', q' ≠ q →
            lookupA (SetInitialValue st q v).2.initialValues q'
              = lookupA st.initialValues q')
    ∧ (∀ st q, lookupA (ResetInitialValue st q).initialValues q = none)
    ∧ (∀ st q, lookupA st.initialValues q = none →
        ∃ msg, GetInitialValue st q = .error (.entityNotFound msg))
    ∧ (∀ st q v, lookupA st.initialValues q = some v →
        GetInitialValue st q = .ok v) := by
  refine ⟨?_, ?_, ?_, ?_, ?_, ?_⟩
  · intro st q v h
    obtain ⟨msg, hmsg⟩ := getVariableDescription_error st q h
    refine ⟨msg, ?_, ?_⟩ <;> simp [SetInitialValue, hmsg]
  · intro st q v d h1 h2
    refine ⟨"Attempted to assign a value of type ".toList
        ++ DataTypeName (DataTypeOf v)
        ++ " to variable ".toList
        ++ QualifiedVariableNameString q.slave d.name
        ++ " which has type ".toList ++ DataTypeName d.dataType, ?_, ?_⟩ <;>
      simp [SetInitialValue, h1, EnforceValidValue, h2]
  · intro st q v d h1 h2
    have hval : EnforceValidValue q.slave d v = .ok () := by
      simp [EnforceValidValue, h2]
    refine ⟨?_, ?_, ?_⟩
    · simp [SetInitialValue, h1, hval]
    · simp [SetInitialValue, h1, hval, lookupA_setA_self]
    · intro q' hq'
      simp [SetInitialValue, h1, hval, lookupA_setA_ne _ _ _ _ hq']
  · intro st q
    exact lookupA_eraseA_self st.initialValues q
  · intro st q h
    exact ⟨"No initial value set for variable ".toList ++ q.ToStr,
      by simp [GetInitialValue, h]⟩
  · intro st q v h
    simp [GetInitialValue, h]

/-- Witness for C5, on the unit test's model: setting `slave2.x`
(Real) to an Integer value fails and changes nothing; setting it to a
Real value stores that value, and setting it again replaces it;
resetting removes it; getting an unset value fails. -/
theorem initialValue_spec_witness :
    (∃ msg, (SetInitialValue mbState2 ⟨"slave3".toList, "x".toList⟩ (.realV 4)).1
        = .error (.entityNotFound msg)
      ∧ (SetInitialValue mbState2 ⟨"slave3".toList, "x".toList⟩ (.realV 4)).2
        = mbState2)
    ∧ (∃ msg, (SetInitialValue mbState2 qvnS2X (.integerV 123)).1
        = .error (.modelConstruction msg)
      ∧ (SetInitialValue mbState2 qvnS2X (.integerV 123)).2 = mbState2)
    ∧ ((SetInitialValue mbState2 qvnS2X (.realV 4)).1 = .ok ()
      ∧ lookupA (SetInitialValue mbState2 qvnS2X (.realV 4)).2.initialValues qvnS2X
        = some (.realV 4))
    ∧ lookupA (ResetInitialValue mbState2 qvnS2X).initialValues qvnS2X = none
    ∧ (∃ msg, GetInitialValue mbState2 qvnS2X = .error (.entityNotFound msg)) := by
  refine ⟨?_, ?_, ?_, ?_, ?_⟩
  · exact initialValue_spec.1 mbState2 ⟨"slave3".toList, "x".toList⟩ (.realV 4)
      (by decide)
  · exact initialValue_spec.2.1 mbState2 qvnS2X (.integerV 123)
      ⟨10, "x".toList, .real, .input, .continuous⟩ (by decide) (by decide)
  · have h := initialValue_spec.2.2.1 mbState2 qvnS2X (.realV 4)
      ⟨10, "x".toList, .real, .input, .continuous⟩ (by decide) (by decide)
    exact ⟨h.1, h.2.1⟩
  · exact initialValue_spec.2.2.2.1 mbState2 qvnS2X
  · exact initialValue_spec.2.2.2.2.1 mbState2 qvnS2X (by decide)

/-- C9: a `ModelBuilder` operation that throws — `AddSlave` with an
invalid or duplicate name, `SetInitialValue` with an unknown variable
or mismatched data type, `Connect` failing any validation — leaves the
builder state exactly as it was. -/
theorem builder_error_preserves_state :
    (∀ st name ty e, (AddSlave st name ty).1 = .error e →
        (AddSlave st name ty).2 = st)
    ∧ (∀ st q v e, (SetInitialValue st q v).1 = .error e →
        (SetInitialValue st q v).2 = st)
    ∧ (∀ st src tgt e, (ConnectVariables st src tgt).1 = .error e →
        (ConnectVariables st src tgt).2 = st) := by
  refine ⟨?_, ?_, ?_⟩
  · intro st name ty e herr
    by_cases h1 : IsValidSlaveName name
    · by_cases h2 : (lookupA st.slaves name).isSome
      · simp [AddSlave, h1, h2]
      · simp [AddSlave, h1, h2] at herr
    · simp [AddSlave, h1]
  · intro st q v e herr
    cases h1 : GetVariableDescription st q with
    | error e1 => simp [SetInitialValue, h1]
    | ok d =>
      cases h2 : EnforceValidValue q.slave d v with
      | error e2 => simp [SetInitialValue, h1, h2]
      | ok u => cases u; simp [SetInitialValue, h1, h2] at herr
  · intro st src tgt e herr
    cases h1 : GetVariableDescription st src with
    | error e1 => simp [ConnectVariables, h1]
    | ok sv =>
      cases h2 : GetVariableDescription st tgt with
      | error e2 => simp [ConnectVariables, h1, h2]
      | ok tv =>
        cases h3 : EnforceValidConnection src.slave sv tgt.slave tv with
        | error e3 => simp [ConnectVariables, h1, h2, h3]
        | ok u =>
          cases u
          rcases hins : insertNewA st.connections src tgt with ⟨m, b⟩
          cases b with
          | true => simp [ConnectVariables, h1, h2, h3, hins] at herr
          | false =>
            have hm : m = st.connections := by
              unfold insertNewA at hins
              cases h5 : lookupA st.connections src with
              | none => rw [h5] at hins; simp at hins
              | some t0 => rw [h5] at hins; simp at hins; exact hins.symm
            simp [ConnectVariables, h1, h2, h3, hins, hm]


/-- Witness for C9: a duplicate `AddSlave`, a mistyped
`SetInitialValue` and a backwards `Connect` each leave the built state
untouched. -/
theorem builder_error_preserves_state_witness :
    (AddSlave mbState2 ("slave2".toList) widgetType).2 = mbState2
    ∧ (SetInitialValue mbState2 qvnS2X (.integerV 123)).2 = mbState2
    ∧ (ConnectVariables mbState2 qvnS2X qvnS1A).2 = mbState2 := by
  refine ⟨?_, ?_, ?_⟩
  · exact builder_error_preserves_state.1 mbState2 ("slave2".toList) widgetType
      (.modelConstruction ("Slave name already in use: slave2".toList)) (by decide)
  · exact builder_error_preserves_state.2.1 mbState2 qvnS2X (.integerV 123)
      (.modelConstruction
        ("Attempted to assign a value of type integer to variable slave2.x which has type real".toList))
      (by decide)
  · exact builder_error_preserves_state.2.2 mbState2 qvnS2X qvnS1A
      (.modelConstruction
        (ConnectionErrMsg ("slave2".toList) ("x".toList) ("slave1".toList) ("a".toList)
          ("Only output variables and calculated parameters may be used as sources in a connection".toList)))
      (by decide)

/-- A `SetValue` that returns normally stores the value. -/
theorem setValue_ok_result {T E : Type} (s s1 : PFState T E) (v : T)
    (h : SetValue s v = (.ok (), s1)) : s1.shared.result = some v := by
  by_cases hsat : s.shared.result.isSome ∨ s.shared.exception.isSome
  · simp [SetValue, EnforceUnsatisfied, hsat] at h
  · by_cases hrh : s.shared.resultHandlerSet
    · simp [SetValue, EnforceUnsatisfied, hsat, hrh,
        DelayCallResultHandler, AddImmediateEvent] at h
      subst h
      rfl
    · simp [SetValue, EnforceUnsatisfied, hsat, hrh] at h
      subst h
      rfl

/-- A `SetException` that returns normally stores the exception. -/
theorem setException_ok_exception {T E : Type} (s s1 : PFState T E) (e : E)
    (h : SetException s e = (.ok (), s1)) : s1.shared.exception = some e := by
  by_cases hsat : s.shared.result.isSome ∨ s.shared.exception.isSome
  · simp [SetException, EnforceUnsatisfied, hsat] at h
  · by_cases hxh : s.shared.exceptionHandlerSet
    · simp [SetException, EnforceUnsatisfied, hsat, hxh,
        DelayCallExceptionHandler, AddImmediateEvent] at h
      subst h
      rfl
    · simp [SetException, EnforceUnsatisfied, hsat, hxh] at h
      subst h
      rfl

/-- On a satisfied shared state, `SetValue` throws
`promise_already_satisfied` and changes nothing. -/
theorem setValue_satisfied {T E : Type} (s : PFState T E)
    (h : s.shared.result.isSome ∨ s.shared.exception.isSome) (w : T) :
    SetValue s w = (.error .promiseAlreadySatisfied, s) := by
  simp [SetValue, EnforceUnsatisfied, h]

/-- On a satisfied shared state, `SetException` throws
`promise_already_satisfied` and changes nothing. -/
theorem setException_satisfied {T E : Type} (s : PFState T E)
    (h : s.shared.result.isSome ∨ s.shared.exception.isSome) (e : E) :
    SetException s e = (.error .promiseAlreadySatisfied, s) := by
  simp [SetException, EnforceUnsatisfied, h]

/-- C6: the first `GetFuture` succeeds and every later one throws
`future_already_retrieved`; after a first successful `SetValue` or
`SetException`, every further `SetValue` or `SetException` throws
`promise_already_satisfied` and leaves the stored result or exception
unchanged. -/
theorem promise_misuse_spec {T E : Type} :
    (∀ (s s1 : PFState T E), GetFuture s = (.ok (), s1) →
        GetFuture s1 = (.error .futureAlreadyRetrieved, s1))
    ∧ (∀ (s s1 : PFState T E) (v : T), SetValue s v = (.ok (), s1) →
        (∀ w : T, SetValue s1 w = (.error .promiseAlreadySatisfied, s1))
        ∧ (∀ e : E, SetException s1 e = (.error .promiseAlreadySatisfied, s1)))
    ∧ (∀ (s s1 : PFState T E) (e : E), SetException s e = (.ok (), s1) →
        (∀ w : T, SetValue s1 w = (.error .promiseAlreadySatisfied, s1))
        ∧ (∀ e2 : E, SetException s1 e2 = (.error .promiseAlreadySatisfied, s1))) := by
  refine ⟨?_, ?_, ?_⟩
  · intro s s1 hgf
    by_cases h : s.shared.futureRetrieved
    · simp [GetFuture, h] at hgf
    · simp [GetFuture, h] at hgf
      subst hgf
      simp [GetFuture]
  · intro s s1 v hsv
    have hr : s1.shared.result.isSome ∨ s1.shared.exception.isSome := by
      rw [setValue_ok_result s s1 v hsv]
      simp
    exact ⟨fun w => setValue_satisfied s1 hr w,
           fun e => setException_satisfied s1 hr e⟩
  · intro s s1 e hse
    have hr : s1.shared.result.isSome ∨ s1.shared.exception.isSome := by
      rw [setException_ok_exception s s1 e hse]
      simp
    exact ⟨fun w => setValue_satisfied s1 hr w,
           fun e2 => setException_satisfied s1 hr e2⟩

/-- Witness for C6: a fresh promise over `Int`. -/
theorem promise_misuse_spec_witness :
    GetFuture ((GetFuture (PFState.init Int Int)).2)
      = (.error .futureAlreadyRetrieved, (GetFuture (PFState.init Int Int)).2)
    ∧ SetValue ((SetValue (PFState.init Int Int) 5).2) 6
      = (.error .promiseAlreadySatisfied, (SetValue (PFState.init Int Int) 5).2)
    ∧ SetException ((SetException (PFState.init Int Int) 9).2) 10
      = (.error .promiseAlreadySatisfied, (SetException (PFState.init Int Int) 9).2) := by
  refine ⟨?_, ?_, ?_⟩
  · exact promise_misuse_spec.1 (PFState.init Int Int) _ (by decide)
  · exact (promise_misuse_spec.2.1 (PFState.init Int Int) _ 5 (by decide)).1 6
  · exact (promise_misuse_spec.2.2 (PFState.init Int Int) _ 9 (by decide)).2 10

/-- C2: for each of the three realisable orderings of `GetFuture`,
`OnCompletion` and a single `SetValue v` (or `SetException e`), every
call returns normally, the reactor run after both registration and
resolution invokes the result handler with `v` (respectively the
exception handler with `e`) exactly once, and later runs invoke
nothing further. -/
theorem future_completion_exactly_once {T E : Type} (v : T) (e : E) :
    (∀ ops : List (PFOp T E),
      (ops = [.getFuture, .onCompletion, .setValue v]
        ∨ ops = [.getFuture, .setValue v, .onCompletion]
        ∨ ops = [.setValue v, .getFuture, .onCompletion]) →
      ∃ s, applyPFOps (PFState.init T E) ops = .ok s
        ∧ (RunReactor s).invocations = [.result v]
        ∧ RunReactor (RunReactor s) = RunReactor s)
    ∧ (∀ ops : List (PFOp T E),
      (ops = [.getFuture, .onCompletion, .setException e]
        ∨ ops = [.getFuture, .setException e, .onCompletion]
        ∨ ops = [.setException e, .getFuture, .onCompletion]) →
      ∃ s, applyPFOps (PFState.init T E) ops = .ok s
        ∧ (RunReactor s).invocations = [.exception e]
        ∧ RunReactor (RunReactor s) = RunReactor s) := by
  constructor <;>
    · intro ops h
      rcases h with h | h | h <;> subst h <;> exact ⟨_, rfl, rfl, rfl⟩

/-- Witness for C2: `Promise<int>` resolved with 123, handlers
registered after resolution. -/
theorem future_completion_exactly_once_witness :
    ∃ s, applyPFOps (PFState.init Int Int)
        [.getFuture, .setValue 123, .onCompletion] = .ok s
      ∧ (RunReactor s).invocations = [.result 123]
      ∧ RunReactor (RunReactor s) = RunReactor s :=
  (future_completion_exactly_once 123 7).1 _ (Or.inr (Or.inl rfl))

/-- C7: when an outstanding request times out, the response handler is
invoked with a Timeout error, state tag 0 and empty response id and
data; the request socket is torn down and rebuilt (the generation
counter advances), and any further request is sent on the rebuilt
socket. -/
theorem rfsm_timeout_spec (m : MasterState) (_hbusy : m.busy = true) :
    (HandleTimeout m).handlerCalls
      = m.handlerCalls
        ++ [{ error := some .timeout, state := 0,
              responseID := [], responseData := [] }]
    ∧ (HandleTimeout m).socketGeneration = m.socketGeneration + 1
    ∧ (HandleTimeout m).busy = false
    ∧ ∀ id data t,
        (SendEvent (HandleTimeout m) id data t).1 = .ok ()
        ∧ (SendEvent (HandleTimeout m) id data t).2.sentFrames
          = m.sentFrames
            ++ [(m.socketGeneration + 1, ["EVENT".toList, id, data])] := by
  refine ⟨rfl, rfl, rfl, ?_⟩
  intro id data t
  constructor <;> simp [SendEvent, HandleTimeout]

/-- Witness for C7: a master with one outstanding request. -/
theorem rfsm_timeout_spec_witness :
    ((HandleTimeout (SendEvent {} ("HELLO".toList) [] 100).2).handlerCalls
      = (SendEvent ({} : MasterState) ("HELLO".toList) [] 100).2.handlerCalls
        ++ [{ error := some .timeout, state := 0,
              responseID := [], responseData := [] }])
    ∧ (HandleTimeout (SendEvent {} ("HELLO".toList) [] 100).2).socketGeneration
      = (SendEvent ({} : MasterState) ("HELLO".toList) [] 100).2.socketGeneration + 1 := by
  have h := rfsm_timeout_spec (SendEvent {} ("HELLO".toList) [] 100).2 (by decide)
  exact ⟨h.1, h.2.1⟩

/-- C8: `SendEvent` on a busy master throws and sends nothing, leaving
the master exactly as it was; on a non-busy master it sends the three
request frames and marks the master busy, and the master stays busy
until the outstanding request completes (by reply or by timeout). -/
theorem rfsm_busy_spec (m : MasterState) :
    (m.busy = true → ∀ id data t, SendEvent m id data t = (.error .busy, m))
    ∧ (m.busy = false → ∀ id data t,
        (SendEvent m id data t).1 = .ok ()
        ∧ (SendEvent m id data t).2.sentFrames
          = m.sentFrames ++ [(m.socketGeneration, ["EVENT".toList, id, data])]
        ∧ (SendEvent m id data t).2.busy = true
        ∧ (∀ st rid rdata,
            (HandleReply (SendEvent m id data t).2 st rid rdata).busy = false)
        ∧ (HandleTimeout (SendEvent m id data t).2).busy = false) := by
  constructor
  · intro h id data t
    simp [SendEvent, h]
  · intro h id data t
    refine ⟨?_, ?_, ?_, ?_, ?_⟩ <;>
      simp [SendEvent, HandleReply, HandleTimeout, h]

/-- Witness for C8: a busy master rejects a second request unchanged;
a fresh master accepts one. -/
theorem rfsm_busy_spec_witness :
    (SendEvent (SendEvent {} ("A".toList) [] 50).2 ("B".toList) [] 50
      = (.error .busy, (SendEvent ({} : MasterState) ("A".toList) [] 50).2))
    ∧ (SendEvent ({} : MasterState) ("A".toList) [] 50).1 = .ok ()
    ∧ (SendEvent ({} : MasterState) ("A".toList) [] 50).2.busy = true := by
  refine ⟨?_, ?_, ?_⟩
  · exact (rfsm_busy_spec (SendEvent {} ("A".toList) [] 50).2).1 (by decide)
      ("B".toList) [] 50
  · exact ((rfsm_busy_spec ({} : MasterState)).2 (by decide) ("A".toList) [] 50).1
  · exact ((rfsm_busy_spec ({} : MasterState)).2 (by decide) ("A".toList) [] 50).2.2.1

/-- When `find` reports no occurrence, no position holds the
character. -/
theorem strFind_eq_none {s : Str} {c : Char} (h : strFind s c = none) :
    ∀ j : Nat, s[j]? ≠ some c := by
  induction s with
  | nil => intro j; simp
  | cons a rest ih =>
    intro j
    unfold strFind at h
    by_cases hac : a = c
    · simp [hac] at h
    · simp only [if_neg hac, Option.map_eq_none'] at h
      cases j with
      | zero =>
        intro hh
        rw [List.getElem?_cons_zero] at hh
        exact hac (Option.some.inj hh)
      | succ j =>
        intro hh
        rw [List.getElem?_cons_succ] at hh
        exact ih h j hh

/-- When `find` reports position `i`, the character stands at `i` and
at no earlier position. -/
theorem strFind_eq_some {s : Str} {c : Char} {i : Nat}
    (h : strFind s c = some i) :
    s[i]? = some c ∧ ∀ j : Nat, j < i → s[j]? ≠ some c := by
  induction s generalizing i with
  | nil => simp [strFind] at h
  | cons a rest ih =>
    unfold strFind at h
    by_cases hac : a = c
    · rw [if_pos hac] at h
      obtain rfl : (0 : Nat) = i := by simpa using h
      subst hac
      exact ⟨by rw [List.getElem?_cons_zero],
        fun j hj => absurd hj (Nat.not_lt_zero j)⟩
    · rw [if_neg hac, Option.map_eq_some'] at h
      obtain ⟨i', hi', rfl⟩ := h
      obtain ⟨h1, h2⟩ := ih hi'
      refine ⟨by rw [List.getElem?_cons_succ]; exact h1, ?_⟩
      intro j hj
      cases j with
      | zero =>
        intro hh
        rw [List.getElem?_cons_zero] at hh
        exact hac (Option.some.inj hh)
      | succ j =>
        intro hh
        rw [List.getElem?_cons_succ] at hh
        exact h2 j (by omega) hh

/-- A string has at most one first-dot position. -/
theorem firstDotAt_unique {s : Str} {i i' : Nat}
    (h : FirstDotAt s i) (h' : FirstDotAt s i') : i = i' := by
  by_contra hne
  rcases Nat.lt_or_ge i i' with hlt | hge
  · exact h'.2 i hlt h.1
  · rcases Nat.lt_or_ge i' i with hlt' | hge'
    · exact h.2 i' hlt' h'.1
    · omega

/-- On `slave ++ "." ++ variable` with a dot-free slave name, `find`
locates the separating dot. -/
theorem strFind_append_dot (slave var1 : Str) (h : '.' ∉ slave) :
    strFind (slave ++ '.' :: var1) '.' = some slave.length := by
  induction slave with
  | nil => simp [strFind]
  | cons a rest ih =>
    have ha : ¬ (a = '.') := fun hh => h (by rw [hh]; exact List.mem_cons_self _ _)
    simp only [List.cons_append, strFind, if_neg ha, List.append_eq]
    rw [ih (fun hm => h (List.mem_cons_of_mem a hm))]
    simp

/-- C10: `FromString ∘ ToString` is the identity on qualified names
whose slave part is non-empty and dot-free and whose variable part is
non-empty; and `FromString s` throws `std::invalid_argument` exactly
when the first dot of `s` is absent, at position 0, or at the last
position. -/
theorem qvn_fromString_spec :
    (∀ slave var1 : Str, slave ≠ [] → var1 ≠ [] → '.' ∉ slave →
      QualifiedVariableName.FromString (QualifiedVariableNameString slave var1)
        = .ok ⟨slave, var1⟩)
    ∧ (∀ s : Str,
        (∃ msg, QualifiedVariableName.FromString s = .error msg) ↔
        ¬ ∃ i, FirstDotAt s i ∧ 1 ≤ i ∧ i + 1 < s.length) := by
  constructor
  · intro slave var1 hs hv hdot
    have hslen : 1 ≤ slave.length := by
      cases slave with
      | nil => exact absurd rfl hs
      | cons a r => simp
    have hvlen : 1 ≤ var1.length := by
      cases var1 with
      | nil => exact absurd rfl hv
      | cons a r => simp
    have hlen : (slave ++ '.' :: var1).length = slave.length + var1.length + 1 := by
      simp [List.length_append]
      omega
    simp only [QualifiedVariableName.FromString, QualifiedVariableNameString,
      strFind_append_dot slave var1 hdot]
    rw [if_neg (by omega : ¬ (slave.length < 1
      ∨ slave.length ≥ (slave ++ '.' :: var1).length - 1))]
    have htake : (slave ++ '.' :: var1).take slave.length = slave :=
      List.take_left slave ('.' :: var1)
    have hdrop : (slave ++ '.' :: var1).drop (slave.length + 1) = var1 := by
      have : slave ++ '.' :: var1 = (slave ++ ['.']) ++ var1 := by simp
      rw [this]
      have hl : (slave ++ ['.']).length = slave.length + 1 := by simp
      rw [← hl]
      exact List.drop_left (slave ++ ['.']) var1
    rw [htake, hdrop]
    simp [QualifiedVariableName.mkChecked, hs, hv]
  · intro s
    cases hf : strFind s '.' with
    | none =>
      constructor
      · intro _
        rintro ⟨i, hi, _, _⟩
        exact strFind_eq_none hf i hi.1
      · intro _
        exact ⟨_, by unfold QualifiedVariableName.FromString; rw [hf]⟩
    | some pos =>
      obtain ⟨hat, hbefore⟩ := strFind_eq_some hf
      have hFDA : FirstDotAt s pos := ⟨hat, hbefore⟩
      have hlt : pos < s.length := by
        by_contra hge
        push_neg at hge
        rw [List.getElem?_eq_none hge] at hat
        exact Option.noConfusion hat
      by_cases hcond : pos < 1 ∨ pos ≥ s.length - 1
      · constructor
        · intro _
          rintro ⟨i, hi, h1, h2⟩
          obtain rfl : i = pos := firstDotAt_unique hi hFDA
          omega
        · intro _
          exact ⟨_, by
            simp only [QualifiedVariableName.FromString, hf]
            rw [if_pos hcond]⟩
      · have htake : s.take pos ≠ [] := by
          have hl : (s.take pos).length = pos := by
            rw [List.length_take]
            omega
          intro hnil
          rw [hnil] at hl
          simp at hl
          omega
        have hdrop : s.drop (pos + 1) ≠ [] := by
          have hl : (s.drop (pos + 1)).length = s.length - (pos + 1) :=
            List.length_drop _ _
          intro hnil
          rw [hnil] at hl
          simp at hl
          omega
        constructor
        · rintro ⟨msg, hmsg⟩
          simp only [QualifiedVariableName.FromString, hf] at hmsg
          rw [if_neg hcond] at hmsg
          simp [QualifiedVariableName.mkChecked, htake, hdrop] at hmsg
        · intro hnex
          exact absurd ⟨pos, hFDA, by omega, by omega⟩ hnex

/-- Witness for C10: the round trip on `widget.out`, and the error
characterisation on the dot-free string `nodot`. -/
theorem qvn_fromString_spec_witness :
    QualifiedVariableName.FromString
        (QualifiedVariableNameString ("widget".toList) ("out".toList))
      = .ok ⟨"widget".toList, "out".toList⟩
    ∧ ((∃ msg, QualifiedVariableName.FromString ("nodot".toList) = .error msg) ↔
        ¬ ∃ i, FirstDotAt ("nodot".toList) i ∧ 1 ≤ i
          ∧ i + 1 < ("nodot".toList).length) :=
  ⟨qvn_fromString_spec.1 ("widget".toList) ("out".toList)
      (by decide) (by decide) (by decide),
   qvn_fromString_spec.2 ("nodot".toList)⟩

/-- The handler's update to the results vector, for any state. -/
theorem whenAllHandler_results {n : Nat} {T E : Type}
    (resolve : Fin n → Resolution T E) (st : WhenAllState n T E) (i : Fin n) :
    (WhenAllHandler resolve st i).results
      = Function.update st.results i
          (match resolve i with
           | .value v => { st.results i with value := some v }
           | .exception e => { st.results i with exception := some e }) := by
  unfold WhenAllHandler
  split <;> by_cases hc : st.completed + 1 = n <;> simp [hc]

/-- The handler increments the completion counter. -/
theorem whenAllHandler_completed {n : Nat} {T E : Type}
    (resolve : Fin n → Resolution T E) (st : WhenAllState n T E) (i : Fin n) :
    (WhenAllHandler resolve st i).completed = st.completed + 1 := by
  unfold WhenAllHandler
  split <;> by_cases hc : st.completed + 1 = n <;> simp [hc]

/-- The handler never touches the output promise's exception slot. -/
theorem whenAllHandler_outException {n : Nat} {T E : Type}
    (resolve : Fin n → Resolution T E) (st : WhenAllState n T E) (i : Fin n) :
    (WhenAllHandler resolve st i).outException = st.outException := by
  unfold WhenAllHandler
  split <;> by_cases hc : st.completed + 1 = n <;> simp [hc]

/-- Before the last completion, the handler leaves the output promise
unresolved. -/
theorem whenAllHandler_outValue_of_ne {n : Nat} {T E : Type}
    (resolve : Fin n → Resolution T E) (st : WhenAllState n T E) (i : Fin n)
    (h : st.completed + 1 ≠ n) :
    (WhenAllHandler resolve st i).outValue = st.outValue := by
  simp only [WhenAllHandler]
  rw [if_neg h]

/-- At the last completion, the handler resolves the output promise
with the updated results vector. -/
theorem whenAllHandler_outValue_of_eq {n : Nat} {T E : Type}
    (resolve : Fin n → Resolution T E) (st : WhenAllState n T E) (i : Fin n)
    (h : st.completed + 1 = n) :
    (WhenAllHandler resolve st i).outValue
      = some (List.ofFn ((WhenAllHandler resolve st i).results)) := by
  rw [whenAllHandler_results]
  simp only [WhenAllHandler]
  rw [if_pos h]

/-- Invariant induction for `WhenAll`: firing the handlers once per
still-pending input, in any order, fills the results vector with the
entries determined by the resolutions and resolves the output promise
with that vector at the last firing, never touching its exception
slot. -/
theorem runWhenAll_inv {n : Nat} {T E : Type}
    (resolve : Fin n → Resolution T E) :
    ∀ (order : List (Fin n)) (st : WhenAllState n T E),
      order ≠ [] → order.Nodup →
      st.completed + order.length = n →
      (∀ i, i ∉ order → st.results i = anyResultOf (resolve i)) →
      (∀ i, i ∈ order → st.results i = {}) →
      (RunWhenAll resolve order st).outValue
        = some (List.ofFn (fun i => anyResultOf (resolve i)))
      ∧ (RunWhenAll resolve order st).outException = st.outException := by
  intro order
  induction order with
  | nil => intro st hne _ _ _ _; exact absurd rfl hne
  | cons i rest ih =>
    intro st _ hnd hcount hdone hpend
    have hri : st.results i = {} := hpend i (List.mem_cons_self i rest)
    have hupd : (WhenAllHandler resolve st i).results
        = Function.update st.results i (anyResultOf (resolve i)) := by
      rw [whenAllHandler_results]
      cases resolve i <;> simp [hri, anyResultOf]
    have hrun : RunWhenAll resolve (i :: rest) st
        = RunWhenAll resolve rest (WhenAllHandler resolve st i) := rfl
    cases rest with
    | nil =>
      have hc : st.completed + 1 = n := by
        simpa using hcount
      have hfull : Function.update st.results i (anyResultOf (resolve i))
          = fun k => anyResultOf (resolve k) := by
        funext k
        by_cases hk : k = i
        · subst hk
          simp [Function.update]
        · rw [Function.update_noteq hk]
          exact hdone k (by simpa using hk)
      constructor
      · rw [hrun]
        show (WhenAllHandler resolve st i).outValue = _
        rw [whenAllHandler_outValue_of_eq resolve st i hc, hupd, hfull]
      · rw [hrun]
        exact whenAllHandler_outException resolve st i
    | cons j rest' =>
      have hi_notin : i ∉ j :: rest' := (List.nodup_cons.mp hnd).1
      have hnd' : (j :: rest').Nodup := (List.nodup_cons.mp hnd).2
      have hcount' : (WhenAllHandler resolve st i).completed
          + (j :: rest').length = n := by
        rw [whenAllHandler_completed]
        simp only [List.length_cons] at hcount ⊢
        omega
      have hdone' : ∀ k, k ∉ j :: rest' →
          (WhenAllHandler resolve st i).results k = anyResultOf (resolve k) := by
        intro k hk
        rw [hupd]
        by_cases hki : k = i
        · subst hki
          simp [Function.update]
        · rw [Function.update_noteq hki]
          exact hdone k (by
            intro hmem
            rcases List.mem_cons.mp hmem with h | h
            · exact hki h
            · exact hk h)
      have hpend' : ∀ k, k ∈ j :: rest' →
          (WhenAllHandler resolve st i).results k = {} := by
        intro k hk
        have hki : k ≠ i := fun hh => hi_notin (hh ▸ hk)
        rw [hupd, Function.update_noteq hki]
        exact hpend k (List.mem_cons_of_mem i hk)
      have hres := ih (WhenAllHandler resolve st i) (List.cons_ne_nil j rest')
        hnd' hcount' hdone' hpend'
      refine ⟨by rw [hrun]; exact hres.1, ?_⟩
      rw [hrun, hres.2]
      exact whenAllHandler_outException resolve st i

/-- C3: once all N input futures have resolved (in any order), the
future returned by `WhenAll` resolves to a vector of exactly N entries
in input order, entry i carrying input i's value or its exception and
never both, and it never resolves to an exception; `WhenAll` throws
`std::invalid_argument` on an empty input sequence and
`std::future_error` with code `no_state` when an input future is not
valid. -/
theorem whenAll_spec {T E : Type} :
    (∀ (n : Nat), 0 < n → ∀ (resolve : Fin n → Resolution T E)
        (order : List (Fin n)), order.Perm (List.finRange n) →
      (RunWhenAll resolve order {}).outValue
        = some (List.ofFn (fun i => anyResultOf (resolve i)))
      ∧ (RunWhenAll resolve order {}).outException = none
      ∧ (List.ofFn (fun i => anyResultOf (resolve i))).length = n
      ∧ (∀ i : Fin n,
          ((anyResultOf (resolve i)).value.isSome
            ∧ (anyResultOf (resolve i)).exception = none)
          ∨ ((anyResultOf (resolve i)).value = none
            ∧ (anyResultOf (resolve i)).exception.isSome)))
    ∧ WhenAllCheck [] = .error .invalidArgument
    ∧ (∀ validOf : List Bool, false ∈ validOf →
        WhenAllCheck validOf = .error .noState) := by
  refine ⟨?_, rfl, ?_⟩
  · intro n hn resolve order hperm
    have hnd : order.Nodup := hperm.nodup_iff.mpr (List.nodup_finRange n)
    have hlen : order.length = n := by
      rw [hperm.length_eq, List.length_finRange]
    have hne : order ≠ [] := by
      intro h0
      rw [h0] at hlen
      simp at hlen
      omega
    have hinv := runWhenAll_inv resolve order {} hne hnd
      (by simpa using hlen)
      (fun i hi => absurd (hperm.mem_iff.mpr (List.mem_finRange i)) hi)
      (fun i _ => rfl)
    refine ⟨hinv.1, hinv.2, List.length_ofFn _, ?_⟩
    intro i
    cases resolve i <;> simp [anyResultOf]
  · intro validOf hmem
    cases validOf with
    | nil => exact absurd hmem (List.not_mem_nil false)
    | cons b rest =>
      have : ¬ (b :: rest).all (fun x => x) = true := by
        intro hall
        have := (List.all_eq_true.mp hall) false hmem
        simp at this
      simp [WhenAllCheck, this]

/-- Witness for C3: two futures over `Int`, the first resolving to the
value 2, the second to an exception, resolved in reverse order. -/
theorem whenAll_spec_witness :
    ((RunWhenAll
        (fun i : Fin 2 =>
          if i = 0 then Resolution.value (2 : Int)
          else Resolution.exception (9 : Int)) [1, 0] {}).outValue
      = some (List.ofFn (fun i : Fin 2 =>
          anyResultOf (if i = 0 then Resolution.value (2 : Int)
            else Resolution.exception (9 : Int)))))
    ∧ ((RunWhenAll
        (fun i : Fin 2 =>
          if i = 0 then Resolution.value (2 : Int)
          else Resolution.exception (9 : Int)) [1, 0] {}).outException
      = none) := by
  have h := (whenAll_spec (T := Int) (E := Int)).1 2 (by decide)
    (fun i : Fin 2 =>
      if i = 0 then Resolution.value (2 : Int)
      else Resolution.exception (9 : Int))
    [1, 0] (by decide)
  exact ⟨h.1, h.2.1⟩

end Coral
